import Mathlib

/-!
Verification development for the frame-streaming pipeline of this repository
(`app.js`, first variant, together with `worker.js`, first variant).

The pipeline consists of
 - a worker (producer) that generates frames carrying a cyclic slot index
   (`generateImage` / `continuousGenerate` / `waitToSend` in `worker.js`),
 - two FIFO message channels (`postMessage` in each direction),
 - a blocking handoff queue on the main thread (`queuePut` / `queueGet`),
 - a progressive upload scheduler (`processProgressiveUpload`), and
 - the animation loop (`animate`) with the crossfade clock `t` and the
   texture ring indices `currTexIdx` / `nextTexIdx`.

We embed this as an executable transition system `Sys` driven by an external
schedule of events (`Ev`): each event is one atomic unit of work of one of
the two execution contexts (one message delivered and fully processed
together with the synchronous/microtask continuation it triggers, one frame
generated, or one animation tick).  The clock `t` of the source only ever
takes the values `0, dt, 2·dt, ...` (it is reset to `0` and incremented by
`dt`), so the machine stores it as the exact tick count `tTicks` with
`t = tTicks * dt`; the two decisions the source takes on `t` — `t > 1.0`
and `max(1, floor((1-t)/dt))` — are kept as exact rational-arithmetic
definitions (`framesLeftN`, `uploadChunk`) and proved equal to the
machine's ℕ computations at these clock values (`clock_gt_one`,
`uploadChunkTick_eq`).  Counters such as `retired`, `spaceSent`,
`receiveCalls`, `violationCount` and the logs `consumed`, `sentLog`,
`rotLog` are ghost instrumentation recording observable events; they do not
influence the dynamics.
-/

set_option maxRecDepth 4000 in
/-- `BUFFER_SIZE` from `app.js` / `worker.js` (ring capacity N). -/
def BUFFER_SIZE : ℕ := 3

/-- `MAX_QUEUE_SIZE = BUFFER_SIZE` from `app.js`. -/
def MAX_QUEUE_SIZE : ℕ := BUFFER_SIZE

/-- `HP` (tile height) from `app.js`. -/
def HP : ℕ := 128

/-- `HG` (grid height) from `app.js`. -/
def HG : ℕ := 4

/-- `g_tex_H = HP * HG` from `app.js`: the number of pixel rows H. -/
def g_tex_H : ℕ := HP * HG

/-- `steps` from `app.js` (ticks per crossfade). -/
def steps : ℕ := 10

/-- `dt = 1.0 / steps` from `app.js`, as an exact rational. -/
def dt : ℚ := 1 / (steps : ℚ)

/-- `framesLeft = Math.max(1, Math.floor((1.0 - t) / dt))` from
`processProgressiveUpload` in `app.js`. -/
def framesLeftN (tv dtv : ℚ) : ℕ := (max 1 ⌊(1 - tv) / dtv⌋).toNat

/-- `rowsToUpload = Math.min(rowsLeft, Math.floor(rowsLeft / framesLeft) + 1)`
from `processProgressiveUpload` in `app.js`. -/
def rowsThisTick (rowsLeft fl : ℕ) : ℕ := min rowsLeft (rowsLeft / fl + 1)

/-- The number of rows transferred by one invocation of
`processProgressiveUpload` at clock value `tv` with `rowsUploaded = d`
(specialised to the source constants `g_tex_H` and `dt`). -/
def uploadChunk (tv : ℚ) (d : ℕ) : ℕ := rowsThisTick (g_tex_H - d) (framesLeftN tv dt)

/-- `uploadChunk` at a clock value `t = k * dt` that is an exact multiple of
`dt`, computed in ℕ: `uploadChunkTick_eq` proves that this equals the
source's formula `min(rowsLeft, floor(rowsLeft / max(1, floor((1-t)/dt))) + 1)`
evaluated exactly. -/
def uploadChunkTick (k d : ℕ) : ℕ := rowsThisTick (g_tex_H - d) (max 1 (steps - k))

/-- One upload advance with general height `H` and general clock values:
`rowsUploaded += rowsToUpload` from `processProgressiveUpload`. -/
def puAdvance (H : ℕ) (tv dtv : ℚ) (d : ℕ) : ℕ :=
  d + rowsThisTick (H - d) (framesLeftN tv dtv)

/-- `rowsUploaded` after `k` ticks of the progressive upload of `H` rows,
one advance per tick, the clock at the `k`-th tick being `t = k / st`
(`dt = 1 / st`), exactly as in `animate`: a pending upload is created at a
rotation with `rowsUploaded = 0` and `t` reset to `0`, `t` is incremented by
`dt` at the end of every tick, and the upload is advanced at the start of
each subsequent tick, so the `k`-th advance sees `t = k * dt`.  Once
`rowsUploaded` reaches `H` the pending upload is cleared and no further
advance happens. -/
def uploadRun (H st : ℕ) : ℕ → ℕ
  | 0 => 0
  | k + 1 =>
    let d := uploadRun H st k
    if H ≤ d then d else puAdvance H (((k + 1 : ℕ) : ℚ) / (st : ℚ)) (1 / (st : ℚ)) d

/-- `rowsUploaded` after `n` invocations of the upload-advance step on a
pending upload created with `rowsUploaded = 0`, where the `n`-th invocation
sees an arbitrary clock value `ts n` (height fixed to the source's
`g_tex_H`); the step is skipped once the upload is complete. -/
def iterAdvance (ts : ℕ → ℚ) : ℕ → ℕ
  | 0 => 0
  | n + 1 =>
    let d := iterAdvance ts n
    if g_tex_H ≤ d then d else d + uploadChunk (ts n) d

/-- Messages on the worker → main `postMessage` channel ('ready', 'image',
'error'; the 'image' payload is abstracted to its `slotIdx`). -/
inductive Msg
  | ready
  | image (slot : ℕ)
  | error
  deriving Repr, DecidableEq

/-- Messages on the main → worker `postMessage` channel ('start_generating',
'queue_has_space'). -/
inductive Ctl
  | start
  | space
  deriving Repr, DecidableEq

/-- `pendingUpload = { slotIdx, pboIdx, rgbData, rowsUploaded }` from
`app.js` (the pixel payload is abstracted away; all decisions in the source
depend only on the fields kept here). -/
structure PU where
  slotIdx : ℕ
  pboIdx : ℕ
  rowsUploaded : ℕ
  deriving Repr, DecidableEq

/-- The control state of the main thread's consumer logic.
`boot`: before the worker's 'ready' message is processed.
`fillWaiting i`: inside `fillBuffer`, `i` frames consumed so far and one
`queueGet` outstanding (a resolver sits in `queueWaiters`).
`running`: the `animate` loop is active and not suspended.
`rotWaiting`: `animate` performed a rotation and is suspended on the
blocking `queueGet` (a resolver sits in `queueWaiters`). -/
inductive Phase
  | boot
  | fillWaiting (i : ℕ)
  | running
  | rotWaiting
  deriving Repr, DecidableEq

/-- The length of `queueWaiters` in `app.js`: the consumer is a single
cooperative loop, so at most one resolver is ever stored, exactly while the
consumer phase is a waiting phase. -/
def queueWaiters : Phase → ℕ
  | Phase.fillWaiting _ => 1
  | Phase.rotWaiting => 1
  | _ => 0

/-- Global state of the two execution contexts and the two channels. -/
structure Sys where
  /-- worker: `continuousGenerate` has been started by 'start_generating'. -/
  started : Bool
  /-- worker: `slotIdx` (already reduced mod `BUFFER_SIZE`, as in the source). -/
  slotIdx : ℕ
  /-- ghost: total number of frames generated by `generateImage`. -/
  genCount : ℕ
  /-- worker: `queueSpaceAvailable`. -/
  queueSpaceAvailable : ℕ
  /-- worker: the generated frame held while its `waitToSend` promise is
  unresolved (`queueSpaceWaiters` nonempty iff this is `some`). -/
  heldFrame : Option ℕ
  /-- worker → main channel contents, oldest first. -/
  imgChan : List Msg
  /-- main → worker channel contents, oldest first. -/
  ctlChan : List Ctl
  /-- main: consumer control state. -/
  phase : Phase
  /-- main: `imageQueue` (items abstracted to their `slotIdx`). -/
  imageQueue : List ℕ
  /-- main: the crossfade clock `t`, stored as the exact number of `dt`
  increments since the last rotation reset; the source value is
  `t = tTicks * dt` (the source only ever sets `t` to `0` and adds `dt`, so
  `t` is always such a multiple; `uploadChunkTick_eq` and `clock_gt_one`
  relate the two decisions the source takes on `t` to this counter). -/
  tTicks : ℕ
  /-- main: `currTexIdx`. -/
  currTexIdx : ℕ
  /-- main: `nextTexIdx`. -/
  nextTexIdx : ℕ
  /-- main: `pendingUpload`. -/
  pendingUpload : Option PU
  /-- ghost: slots returned by `queueGet`, in consumption order. -/
  consumed : List ℕ
  /-- ghost: slots posted as 'image' messages, in send order. -/
  sentLog : List ℕ
  /-- ghost: frames fully retired (fill-phase `uploadTextureComplete`
  finished, or a `pendingUpload` completed). -/
  retired : ℕ
  /-- ghost: number of `queueGet()` invocations. -/
  receiveCalls : ℕ
  /-- ghost: 'queue_has_space' messages posted by the main thread. -/
  spaceSent : ℕ
  /-- ghost: 'queue_has_space' messages processed by the worker. -/
  spaceProcessed : ℕ
  /-- ghost: times the 'start_generating' handler granted the initial credits. -/
  grantCount : ℕ
  /-- ghost: times `animate` logged `'ERROR: Pending upload not finished!'`. -/
  violationCount : ℕ
  /-- ghost: 'queue_has_space' messages posted from `queuePut`. -/
  putsBelow : ℕ
  /-- ghost: 'queue_has_space' messages posted from `queueGet`. -/
  getsBelow : ℕ
  /-- main: an 'error' message has been processed. -/
  errorReceived : Bool
  /-- ghost: the 'error' handler ran `console.error` + `alert`. -/
  alertShown : Bool
  /-- ghost: one entry per rotation dequeue: (slot of the dequeued frame,
  value of `nextTexIdx` at that moment). -/
  rotLog : List (ℕ × ℕ)
  deriving Repr, DecidableEq

/-- The initial state: the worker has finished `init` and posted 'ready';
nothing else has happened. -/
def initSys : Sys :=
  { started := false, slotIdx := 0, genCount := 0, queueSpaceAvailable := 0,
    heldFrame := none, imgChan := [Msg.ready], ctlChan := [],
    phase := Phase.boot, imageQueue := [], tTicks := 0,
    currTexIdx := 0, nextTexIdx := 1, pendingUpload := none,
    consumed := [], sentLog := [], retired := 0, receiveCalls := 0,
    spaceSent := 0, spaceProcessed := 0, grantCount := 0, violationCount := 0,
    putsBelow := 0, getsBelow := 0, errorReceived := false,
    alertShown := false, rotLog := [] }

/-- Post 'queue_has_space' from inside `queuePut` (`worker.postMessage({type:
'queue_has_space'})` after the length check). -/
def sendSpaceViaPut (s : Sys) : Sys :=
  { s with
    ctlChan := s.ctlChan ++ [Ctl.space], spaceSent := s.spaceSent + 1,
    putsBelow := s.putsBelow + 1 }

/-- Post 'queue_has_space' from inside `queueGet`'s immediate branch. -/
def sendSpaceViaGet (s : Sys) : Sys :=
  { s with
    ctlChan := s.ctlChan ++ [Ctl.space], spaceSent := s.spaceSent + 1,
    getsBelow := s.getsBelow + 1 }

/-- The `fillBuffer` loop of `app.js` from the point where it issues its
next `queueGet`, having already consumed `i` frames: if the queue is
nonempty the promise resolves immediately (shift, notify space if below
capacity, `uploadTextureComplete`) and the loop continues; otherwise a
resolver is stored in `queueWaiters`.  After `BUFFER_SIZE` frames the loop
ends and `animate` is started.  The fuel argument only bounds the structural
recursion; `BUFFER_SIZE` is always enough. -/
def fillBuffer : ℕ → ℕ → Sys → Sys
  | 0, _, s => s
  | fuel + 1, i, s =>
    let s1 := { s with receiveCalls := s.receiveCalls + 1 }
    match s1.imageQueue with
    | [] => { s1 with phase := Phase.fillWaiting i }
    | f :: rest =>
      let s2 := { s1 with
        imageQueue := rest, consumed := s1.consumed ++ [f],
        retired := s1.retired + 1 }
      let s3 := if rest.length < MAX_QUEUE_SIZE then sendSpaceViaGet s2 else s2
      if i + 1 < BUFFER_SIZE then fillBuffer fuel (i + 1) s3
      else { s3 with phase := Phase.running }

/-- `queuePut` from `app.js`, together with the consumer continuation it
wakes when a resolver is waiting: push the item; if `queueWaiters` is
nonempty, shift the oldest item and resolve the waiter; post
'queue_has_space' if `imageQueue.length < MAX_QUEUE_SIZE`; then the woken
microtask runs (next `fillBuffer` iteration, or `animate`'s post-rotation
code `pendingUpload := {slotIdx, pboIdx: slotIdx, rowsUploaded: 0}` followed
by render and `t += dt`). -/
def queuePut (f : ℕ) (s : Sys) : Sys :=
  match s.phase with
  | Phase.fillWaiting i =>
    match s.imageQueue ++ [f] with
    | [] => s
    | served :: rest =>
      let s1 := { s with
        imageQueue := rest, consumed := s.consumed ++ [served],
        retired := s.retired + 1 }
      let s2 := if rest.length < MAX_QUEUE_SIZE then sendSpaceViaPut s1 else s1
      if i + 1 < BUFFER_SIZE then fillBuffer BUFFER_SIZE (i + 1) s2
      else { s2 with phase := Phase.running }
  | Phase.rotWaiting =>
    match s.imageQueue ++ [f] with
    | [] => s
    | served :: rest =>
      let s1 := { s with imageQueue := rest, consumed := s.consumed ++ [served] }
      let s2 := if rest.length < MAX_QUEUE_SIZE then sendSpaceViaPut s1 else s1
      { s2 with
        pendingUpload := some { slotIdx := served, pboIdx := served, rowsUploaded := 0 },
        rotLog := s2.rotLog ++ [(served, s2.nextTexIdx)],
        tTicks := s2.tTicks + 1, phase := Phase.running }
  | _ =>
    let q1 := s.imageQueue ++ [f]
    let s1 := { s with imageQueue := q1 }
    if q1.length < MAX_QUEUE_SIZE then sendSpaceViaPut s1 else s1

/-- `processProgressiveUpload` from `app.js`: advance the pending upload by
`rowsToUpload` rows; clear it when `rowsUploaded` reaches `g_tex_H` (which
retires the frame). -/
def processProgressiveUpload (s : Sys) : Sys :=
  match s.pendingUpload with
  | none => s
  | some pu =>
    let d := pu.rowsUploaded + uploadChunkTick s.tTicks pu.rowsUploaded
    if g_tex_H ≤ d then { s with pendingUpload := none, retired := s.retired + 1 }
    else { s with pendingUpload := some { pu with rowsUploaded := d } }

/-- One pass of the `animate` loop of `app.js` (a `requestAnimationFrame`
tick), when the loop is active and not suspended: STEP 1 advance the
pending upload; STEP 2 if `t > 1.0`, reset `t`, advance `currTexIdx` /
`nextTexIdx`, log the violation if a pending upload remains, and perform the
blocking `queueGet` (immediate resolution if the queue is nonempty,
otherwise store a resolver and suspend); STEP 3 render; STEP 4 `t += dt`. -/
def animate (s : Sys) : Sys :=
  if s.phase = Phase.running then
    let s1 := processProgressiveUpload s
    if steps < s1.tTicks then
      let s2 := { s1 with
        tTicks := 0,
        currTexIdx := (s1.currTexIdx + 1) % BUFFER_SIZE,
        nextTexIdx := (s1.nextTexIdx + 1) % BUFFER_SIZE,
        violationCount := s1.violationCount +
          (match s1.pendingUpload with | none => 0 | some _ => 1) }
      let s3 := { s2 with receiveCalls := s2.receiveCalls + 1 }
      match s3.imageQueue with
      | f :: rest =>
        let s4 := { s3 with imageQueue := rest, consumed := s3.consumed ++ [f] }
        let s5 := if rest.length < MAX_QUEUE_SIZE then sendSpaceViaGet s4 else s4
        { s5 with
          pendingUpload := some { slotIdx := f, pboIdx := f, rowsUploaded := 0 },
          rotLog := s5.rotLog ++ [(f, s5.nextTexIdx)],
          tTicks := s5.tTicks + 1 }
      | [] => { s3 with phase := Phase.rotWaiting }
    else { s1 with tTicks := s1.tTicks + 1 }
  else s

/-- One cycle of `continuousGenerate` in `worker.js` up to the send:
`generateImage` produces a frame with `slotIdx` equal to the worker's
counter and advances the counter mod `BUFFER_SIZE`; `waitToSend` then
consumes a credit and the frame is posted, or, with no credit available, a
resolver is pushed onto `queueSpaceWaiters` and the frame is held. -/
def generateAndSend (s : Sys) : Sys :=
  if s.started = true ∧ s.heldFrame = none then
    let f := s.slotIdx
    let s1 := { s with slotIdx := (s.slotIdx + 1) % BUFFER_SIZE, genCount := s.genCount + 1 }
    if 0 < s1.queueSpaceAvailable then
      { s1 with
        queueSpaceAvailable := s1.queueSpaceAvailable - 1,
        imgChan := s1.imgChan ++ [Msg.image f],
        sentLog := s1.sentLog ++ [f] }
    else { s1 with heldFrame := some f }
  else s

/-- The worker's `onmessage` handler processing the oldest main → worker
message: 'start_generating' sets `queueSpaceAvailable = BUFFER_SIZE` and
launches `continuousGenerate`; 'queue_has_space' wakes the waiting
`waitToSend` (whose continuation immediately posts the held frame) or
increments `queueSpaceAvailable`. -/
def workerOnMessage (s : Sys) : Sys :=
  match s.ctlChan with
  | [] => s
  | Ctl.start :: rest =>
    { s with
      ctlChan := rest, queueSpaceAvailable := BUFFER_SIZE,
      started := true, grantCount := s.grantCount + 1 }
  | Ctl.space :: rest =>
    let s1 := { s with ctlChan := rest, spaceProcessed := s.spaceProcessed + 1 }
    match s1.heldFrame with
    | some f =>
      { s1 with
        heldFrame := none, imgChan := s1.imgChan ++ [Msg.image f],
        sentLog := s1.sentLog ++ [f] }
    | none => { s1 with queueSpaceAvailable := s1.queueSpaceAvailable + 1 }

/-- The main thread's `worker.onmessage` handler (from `initWorker` in
`app.js`) processing the oldest worker → main message: 'ready' posts
'start_generating' and calls `fillBuffer` (which synchronously issues the
first `queueGet`); 'image' calls `queuePut`; 'error' runs `console.error`
and `alert`. -/
def mainOnMessage (s : Sys) : Sys :=
  match s.imgChan with
  | [] => s
  | Msg.ready :: rest =>
    match s.phase with
    | Phase.boot =>
      fillBuffer BUFFER_SIZE 0 { s with imgChan := rest, ctlChan := s.ctlChan ++ [Ctl.start] }
    | _ => { s with imgChan := rest }
  | Msg.image f :: rest => queuePut f { s with imgChan := rest }
  | Msg.error :: rest =>
    { s with imgChan := rest, errorReceived := true, alertShown := true }

/-- `generateImage` failing inside its `catch`: the worker posts an 'error'
message (and `continuousGenerate` keeps looping). -/
def postWorkerError (s : Sys) : Sys :=
  if s.started = true then { s with imgChan := s.imgChan ++ [Msg.error] } else s

/-- Scheduler events: each is one atomic unit of work of one context. -/
inductive Ev
  | produce
  | deliverCtl
  | deliverImg
  | tick
  | werror
  deriving Repr, DecidableEq

/-- The transition function of the pipeline. -/
def step : Ev → Sys → Sys
  | Ev.produce => generateAndSend
  | Ev.deliverCtl => workerOnMessage
  | Ev.deliverImg => mainOnMessage
  | Ev.tick => animate
  | Ev.werror => postWorkerError

/-- The state after executing a schedule of events from the initial state.
Quantifying over all schedules quantifies over all interleavings of
asynchronous delivery, generation and rendering. -/
def run (evs : List Ev) : Sys := evs.foldl (fun s e => step e s) initSys

/-- The projection of a worker → main channel onto its 'image' payloads. -/
def images (l : List Msg) : List ℕ :=
  l.filterMap fun m => match m with | Msg.image f => some f | _ => none

/-- The held frame of the worker as a (zero- or one-element) list. -/
def heldList : Option ℕ → List ℕ
  | none => []
  | some f => [f]

/-- Occurrences of 'ready' in a worker → main channel. -/
def readyCount (l : List Msg) : ℕ := l.count Msg.ready

/-- Occurrences of 'start_generating' in a main → worker channel. -/
def startCount (l : List Ctl) : ℕ := l.count Ctl.start

/-! ### Concrete schedules and states used to evaluate the pipeline -/

/-- A schedule that completes the Filling phase: the 'ready' message is
processed, 'start_generating' is delivered, the worker generates and sends
three frames, and the three 'image' messages are delivered (each resolving
the `fillBuffer` waiter). -/
def exFill : List Ev :=
  [Ev.deliverImg, Ev.deliverCtl, Ev.produce, Ev.produce, Ev.produce,
   Ev.deliverImg, Ev.deliverImg, Ev.deliverImg]

/-- A schedule after which the worker has generated nine frames while only
the three fill-phase frames are retired: the consumer has not yet rotated,
yet five frames sit in `imageQueue` and one is held in the worker, because
`queuePut`/`queueGet` hand out 'queue_has_space' credits on enqueue/dequeue
rather than on retirement. -/
def exC1 : List Ev :=
  exFill ++
  [Ev.produce, Ev.deliverCtl, Ev.deliverCtl, Ev.deliverCtl,
   Ev.produce, Ev.produce, Ev.produce,
   Ev.deliverImg, Ev.deliverImg, Ev.deliverImg,
   Ev.deliverCtl, Ev.deliverCtl, Ev.produce, Ev.produce,
   Ev.deliverImg, Ev.deliverImg]

/-- A schedule after which four 'queue_has_space' messages have been sent
while only three frames are retired (the fourth message was emitted by
`queuePut` when the fourth frame was enqueued). -/
def exC2 : List Ev := exFill ++ [Ev.produce, Ev.deliverCtl, Ev.deliverImg]

/-- A schedule reaching the first rotation of the Running state: after the
fill, one more frame is sent and enqueued, and twelve animation ticks bring
the clock past `1.0` and trigger the rotation dequeue. -/
def exC6 : List Ev :=
  exFill ++ [Ev.produce, Ev.deliverCtl, Ev.deliverImg] ++ List.replicate 12 Ev.tick

/-- A schedule in which the worker reports an error right after the fill
phase and the main thread processes it. -/
def exC7pre : List Ev := exFill ++ [Ev.werror, Ev.deliverImg]

/-- `exC7pre` followed by twelve animation ticks, enough for the animation
loop to reach its next rotation and issue another blocking `queueGet`. -/
def exC7 : List Ev := exC7pre ++ List.replicate 12 Ev.tick

/-- A fault-injected state for Scenario D: the animation loop is running,
the clock is already past `1.0` (`tTicks = 11`, i.e. `t = 11/10`), a `pendingUpload` is still
incomplete (`rowsUploaded = 100 < g_tex_H`), and one frame (slot 2) is
queued for the rotation dequeue. -/
def c8state : Sys :=
  { started := true, slotIdx := 1, genCount := 4, queueSpaceAvailable := 0,
    heldFrame := none, imgChan := [], ctlChan := [],
    phase := Phase.running, imageQueue := [2], tTicks := 11,
    currTexIdx := 0, nextTexIdx := 1,
    pendingUpload := some { slotIdx := 1, pboIdx := 1, rowsUploaded := 100 },
    consumed := [], sentLog := [], retired := 0, receiveCalls := 0,
    spaceSent := 0, spaceProcessed := 0, grantCount := 1, violationCount := 0,
    putsBelow := 0, getsBelow := 0, errorReceived := false,
    alertShown := false, rotLog := [] }

/-! ### The inductive invariant of the reachable states -/

/-- The inductive invariant of the pipeline, established for the initial
state and preserved by every event; it packages all the structural facts
the claims rely on. -/
structure PipeInv (s : Sys) : Prop where
  /-- the worker counter is the total generation count mod `BUFFER_SIZE`. -/
  slot_eq : s.slotIdx = s.genCount % BUFFER_SIZE
  /-- every generated frame is either sent (in order) or currently held, and
  the `i`-th generated frame carries slot `i % BUFFER_SIZE`. -/
  gen_log : s.sentLog ++ heldList s.heldFrame = (List.range s.genCount).map (· % BUFFER_SIZE)
  /-- conservation and ordering of frames between producer and consumer:
  the consumed frames, then the queued frames, then the frames in transit,
  in that order, are exactly the sent frames. -/
  flow : s.consumed ++ s.imageQueue ++ images s.imgChan = s.sentLog
  /-- exactly one start token exists: as the pending 'ready', the pending
  'start_generating', or the already-performed grant. -/
  grant_tokens : readyCount s.imgChan + startCount s.ctlChan + s.grantCount = 1
  /-- the initial credits have been granted iff generation has started. -/
  grant_started : s.grantCount = (if s.started = true then 1 else 0)
  /-- credit bookkeeping of `waitToSend` / 'queue_has_space': credits on the
  worker side plus frames sent equal the initial grant plus processed
  space notifications. -/
  credit_balance : s.started = true →
    s.queueSpaceAvailable + s.sentLog.length = BUFFER_SIZE + s.spaceProcessed
  /-- before 'start_generating' is processed nothing has been produced. -/
  prestart : s.started = false →
    s.genCount = 0 ∧ s.queueSpaceAvailable = 0 ∧ s.heldFrame = none ∧
    s.spaceProcessed = 0 ∧ s.sentLog = [] ∧ s.consumed = [] ∧ s.imageQueue = [] ∧
    (s.ctlChan = [] ∨ s.ctlChan = [Ctl.start]) ∧
    (s.imgChan = [Msg.ready] ∨ s.imgChan = [])
  /-- in the boot phase only the 'ready' message exists. -/
  boot_inv : s.phase = Phase.boot →
    s.imgChan = [Msg.ready] ∧ s.ctlChan = [] ∧ s.started = false ∧
    s.consumed = [] ∧ s.imageQueue = []
  /-- 'ready' is consumed the moment the boot phase is left. -/
  ready_boot : s.phase ≠ Phase.boot → readyCount s.imgChan = 0
  /-- while `fillBuffer` waits for its `i`-th frame, `i` frames are consumed. -/
  fill_count : ∀ i, s.phase = Phase.fillWaiting i → s.consumed.length = i ∧ i < BUFFER_SIZE
  /-- the animation loop starts only after `BUFFER_SIZE` consumed frames. -/
  run_count : s.phase = Phase.running ∨ s.phase = Phase.rotWaiting →
    BUFFER_SIZE ≤ s.consumed.length
  /-- in the running state the texture indices track the consumption count. -/
  run_idx : s.phase = Phase.running →
    s.currTexIdx = s.consumed.length % BUFFER_SIZE ∧
    s.nextTexIdx = (s.consumed.length + 1) % BUFFER_SIZE
  /-- while suspended on the rotation dequeue the indices are one ahead. -/
  rot_idx : s.phase = Phase.rotWaiting →
    s.currTexIdx = (s.consumed.length + 1) % BUFFER_SIZE ∧
    s.nextTexIdx = (s.consumed.length + 2) % BUFFER_SIZE
  /-- a waiter is stored only while the queue is empty. -/
  wait_empty : queueWaiters s.phase = 1 → s.imageQueue = []
  /-- before the animation starts the texture indices are at their initial
  values. -/
  pre_idx : s.phase = Phase.boot ∨ (∃ i, s.phase = Phase.fillWaiting i) →
    s.currTexIdx = 0 ∧ s.nextTexIdx = 1
  /-- every rotation dequeue returned the slot `(nextTexIdx + 1) % BUFFER_SIZE`,
  i.e. the slot just vacated by the rotation. -/
  rot_log : ∀ p ∈ s.rotLog, p.1 = (p.2 + 1) % BUFFER_SIZE
  /-- every 'queue_has_space' message originates from `queuePut` or from
  `queueGet`. -/
  space_sites : s.spaceSent = s.putsBelow + s.getsBelow

/-! ### Arithmetic of the progressive upload scheduler -/

theorem framesLeftN_pos (tv dtv : ℚ) : 1 ≤ framesLeftN tv dtv := by
  unfold framesLeftN
  have h : (1 : ℤ) ≤ max 1 ⌊(1 - tv) / dtv⌋ := le_max_left _ _
  omega

theorem rowsThisTick_le (L fl : ℕ) : rowsThisTick L fl ≤ L := min_le_left _ _

theorem rowsThisTick_pos (L fl : ℕ) (h : 1 ≤ L) : 1 ≤ rowsThisTick L fl :=
  le_min h (Nat.succ_le_succ (Nat.zero_le _))

theorem rowsThisTick_one (L : ℕ) : rowsThisTick L 1 = L := by
  unfold rowsThisTick
  simp [Nat.div_one]

/-- Once the clock has passed `1.0`, `framesLeft` is clamped to `1`. -/
theorem framesLeftN_of_late (tv dtv : ℚ) (ht : 1 < tv) (hdt : 0 < dtv) :
    framesLeftN tv dtv = 1 := by
  unfold framesLeftN
  have hx : (1 - tv) / dtv < 0 := div_neg_of_neg_of_pos (by linarith) hdt
  have hf : ⌊(1 - tv) / dtv⌋ < 0 := by
    have := Int.floor_le ((1 - tv) / dtv)
    by_contra hc
    push_neg at hc
    have : (0 : ℚ) ≤ (1 - tv) / dtv := le_trans (by exact_mod_cast hc) (Int.floor_le _)
    linarith
  omega

/-- At the `k`-th tick after a rotation the clock is `k * dt = k / st`, and
the source's `framesLeft` evaluates to `max 1 (st - k)`. -/
theorem framesLeftN_eval (st k : ℕ) (hs : 1 ≤ st) :
    framesLeftN ((k : ℚ) / (st : ℚ)) (1 / (st : ℚ)) = max 1 (st - k) := by
  unfold framesLeftN
  have hst : ((st : ℚ)) ≠ 0 := Nat.cast_ne_zero.mpr (by omega)
  have h1 : (1 - (k : ℚ) / st) / (1 / (st : ℚ)) = (st : ℚ) - (k : ℚ) := by
    field_simp
  rw [h1]
  have h2 : ((st : ℚ) - (k : ℚ)) = (((st : ℤ) - (k : ℤ) : ℤ) : ℚ) := by push_cast; ring
  rw [h2, Int.floor_intCast]
  omega

theorem uploadRun_le (H st : ℕ) : ∀ k, uploadRun H st k ≤ H := by
  intro k
  induction k with
  | zero => simp [uploadRun]
  | succ k ih =>
    simp only [uploadRun]
    split
    · exact ih
    · have h2 := rowsThisTick_le (H - uploadRun H st k)
        (framesLeftN (((k + 1 : ℕ) : ℚ) / (st : ℚ)) (1 / (st : ℚ)))
      unfold puAdvance
      omega

theorem uploadRun_mono_succ (H st k : ℕ) : uploadRun H st k ≤ uploadRun H st (k + 1) := by
  conv_rhs => rw [uploadRun]
  split
  · exact le_refl _
  · unfold puAdvance
    omega

theorem uploadRun_monotone (H st : ℕ) : Monotone (uploadRun H st) :=
  monotone_nat_of_le_succ (uploadRun_mono_succ H st)

/-- The upload completes exactly at the tick where `t` reaches `1.0` at the
latest: there `framesLeft = max(1, 0) = 1` and the whole remainder is sent. -/
theorem uploadRun_steps_complete (H st : ℕ) (hs : 1 ≤ st) : uploadRun H st st = H := by
  obtain ⟨m, rfl⟩ : ∃ m, st = m + 1 := ⟨st - 1, by omega⟩
  have hle := uploadRun_le H (m + 1) m
  simp only [uploadRun]
  split
  · omega
  · have hfl := framesLeftN_eval (m + 1) (m + 1) (by omega)
    unfold puAdvance
    rw [hfl]
    have : m + 1 - (m + 1) = 0 := by omega
    rw [this]
    have : max 1 0 = 1 := by omega
    rw [this, rowsThisTick_one]
    omega

theorem uploadRun_late (H st : ℕ) (hs : 1 ≤ st) : ∀ k, st ≤ k → uploadRun H st k = H := by
  intro k hk
  induction k with
  | zero => omega
  | succ k ih =>
    rcases Nat.lt_or_ge st (k + 1) with h | h
    · have hik := ih (by omega)
      rw [uploadRun]
      simp only [hik]
      split
      · rfl
      · omega
    · have : st = k + 1 := by omega
      rw [this] at hs ⊢
      exact uploadRun_steps_complete H (k + 1) (by omega)

theorem telescope_sum (f : ℕ → ℕ) (h0 : f 0 = 0) (hm : ∀ k, f k ≤ f (k + 1)) :
    ∀ n, (∑ k in Finset.range n, (f (k + 1) - f k)) = f n := by
  intro n
  induction n with
  | zero => simp [h0]
  | succ n ih =>
    rw [Finset.sum_range_succ, ih]
    have := hm n
    omega

theorem cover_of_monotone (f : ℕ → ℕ) :
    ∀ n r, f 0 ≤ r → r < f n → ∃ k, k < n ∧ f k ≤ r ∧ r < f (k + 1) := by
  intro n
  induction n with
  | zero => intro r h0 h1; omega
  | succ n ih =>
    intro r h0 h1
    by_cases hc : r < f n
    · obtain ⟨k, hk, h2, h3⟩ := ih r h0 hc
      exact ⟨k, by omega, h2, h3⟩
    · exact ⟨n, by omega, by omega, h1⟩

theorem iterAdvance_bounds (ts : ℕ → ℚ) :
    ∀ n, min g_tex_H n ≤ iterAdvance ts n ∧ iterAdvance ts n ≤ g_tex_H := by
  intro n
  induction n with
  | zero => simp [iterAdvance]
  | succ n ih =>
    simp only [iterAdvance]
    split
    · omega
    · rename_i hlt
      have h1 := rowsThisTick_pos (g_tex_H - iterAdvance ts n) (framesLeftN (ts n) dt) (by omega)
      have h2 := rowsThisTick_le (g_tex_H - iterAdvance ts n) (framesLeftN (ts n) dt)
      unfold uploadChunk
      omega

theorem iterAdvance_complete (ts : ℕ → ℚ) (n : ℕ) (h : g_tex_H ≤ n) :
    iterAdvance ts n = g_tex_H := by
  have := iterAdvance_bounds ts n
  omega

theorem dt_pos : (0 : ℚ) < dt := by norm_num [dt, steps]

/-- After `t` has passed `1.0`, a single `processProgressiveUpload` always
finishes whatever pending upload exists (the clamped `framesLeft = 1` makes
`rowsToUpload = rowsLeft`). -/
theorem processPU_clears_late (s : Sys) (ht : steps < s.tTicks) :
    (processProgressiveUpload s).pendingUpload = none := by
  unfold processProgressiveUpload
  cases h : s.pendingUpload with
  | none => simp [h]
  | some pu =>
    simp only
    have hch : uploadChunkTick s.tTicks pu.rowsUploaded = g_tex_H - pu.rowsUploaded := by
      unfold uploadChunkTick
      have hz : steps - s.tTicks = 0 := by omega
      rw [hz]
      have h1 : max 1 0 = 1 := rfl
      rw [h1, rowsThisTick_one]
    rw [hch]
    split
    · rfl
    · omega

/-! ### Small helpers for the channel projections -/

@[simp] theorem images_nil : images [] = [] := rfl

@[simp] theorem images_cons_ready (l : List Msg) : images (Msg.ready :: l) = images l := rfl

@[simp] theorem images_cons_error (l : List Msg) : images (Msg.error :: l) = images l := rfl

@[simp] theorem images_cons_image (f : ℕ) (l : List Msg) :
    images (Msg.image f :: l) = f :: images l := rfl

@[simp] theorem images_append (l1 l2 : List Msg) :
    images (l1 ++ l2) = images l1 ++ images l2 := by
  unfold images
  exact List.filterMap_append _ _ _

@[simp] theorem readyCount_nil : readyCount [] = 0 := rfl

@[simp] theorem readyCount_cons_ready (l : List Msg) :
    readyCount (Msg.ready :: l) = readyCount l + 1 := by
  simp [readyCount, List.count_cons]

@[simp] theorem readyCount_cons_image (f : ℕ) (l : List Msg) :
    readyCount (Msg.image f :: l) = readyCount l := by
  simp [readyCount, List.count_cons]

@[simp] theorem readyCount_cons_error (l : List Msg) :
    readyCount (Msg.error :: l) = readyCount l := by
  simp [readyCount, List.count_cons]

@[simp] theorem readyCount_append (l1 l2 : List Msg) :
    readyCount (l1 ++ l2) = readyCount l1 + readyCount l2 := by
  simp [readyCount, List.count_append]

@[simp] theorem startCount_nil : startCount [] = 0 := rfl

@[simp] theorem startCount_cons_start (l : List Ctl) :
    startCount (Ctl.start :: l) = startCount l + 1 := by
  simp [startCount, List.count_cons]

@[simp] theorem startCount_cons_space (l : List Ctl) :
    startCount (Ctl.space :: l) = startCount l := by
  simp [startCount, List.count_cons]

@[simp] theorem startCount_append (l1 l2 : List Ctl) :
    startCount (l1 ++ l2) = startCount l1 + startCount l2 := by
  simp [startCount, List.count_append]

@[simp] theorem heldList_none : heldList none = [] := rfl

@[simp] theorem heldList_some (f : ℕ) : heldList (some f) = [f] := rfl

/-- If a list of slot values decomposes as `l1 ++ x :: l2` and equals the
slot pattern `i ↦ i % BUFFER_SIZE`, then `x` is determined by its index. -/
theorem slot_at_index (l1 l2 : List ℕ) (n x : ℕ)
    (h : l1 ++ x :: l2 = (List.range n).map (· % BUFFER_SIZE)) :
    x = l1.length % BUFFER_SIZE := by
  have hlen : l1.length < n := by
    have hl := congrArg List.length h
    simp at hl
    omega
  have h1 : (l1 ++ x :: l2)[l1.length]? = some x := by
    rw [List.getElem?_append_right (le_refl _)]
    simp
  rw [h] at h1
  have h2 : ((List.range n).map (· % BUFFER_SIZE))[l1.length]? =
      some (l1.length % BUFFER_SIZE) := by
    simp [List.getElem?_map, List.getElem?_range, hlen]
  rw [h1] at h2
  exact (Option.some.injEq _ _).mp h2.symm |>.symm

/-- A left factor of the slot pattern is itself the slot pattern of its
length. -/
theorem left_factor_map_range (l1 l2 : List ℕ) (n : ℕ)
    (h : l1 ++ l2 = (List.range n).map (· % BUFFER_SIZE)) :
    l1 = (List.range l1.length).map (· % BUFFER_SIZE) := by
  have hlen : l1.length ≤ n := by
    have hl := congrArg List.length h
    simp at hl
    omega
  have ht := congrArg (List.take l1.length) h
  rw [List.take_left] at ht
  have h2 : List.take l1.length (List.map (· % BUFFER_SIZE) (List.range n)) =
      (List.range l1.length).map (· % BUFFER_SIZE) := by
    rw [← List.map_take, List.take_range, Nat.min_eq_left hlen]
  exact ht.trans h2

/-! ### Preservation of the invariant -/

theorem pipeInv_initSys : PipeInv initSys := by
  refine ⟨?_, ?_, ?_, ?_, ?_, ?_, ?_, ?_, ?_, ?_, ?_, ?_, ?_, ?_, ?_, ?_, ?_⟩ <;>
    simp [initSys, readyCount, startCount, images, heldList]

theorem inv_generateAndSend (s : Sys) (h : PipeInv s) : PipeInv (generateAndSend s) := by
  obtain ⟨h1, h2, h3, h4, h5, h6, h7, h8, h9, h10, h11, h12, h13, h14, h15, h16, h17⟩ := h
  unfold generateAndSend
  split
  · rename_i hcond
    obtain ⟨hst, hhf⟩ := hcond
    rw [hhf] at h2
    simp only [heldList_none, List.append_nil] at h2
    dsimp only
    split
    · rename_i hcr
      refine ⟨?_, ?_, ?_, ?_, ?_, ?_, ?_, ?_, ?_, ?_, ?_, ?_, ?_, ?_, ?_, ?_, ?_⟩ <;> dsimp only
      · rw [h1]
        unfold BUFFER_SIZE
        omega
      · rw [hhf]
        simp only [heldList_none, List.append_nil, List.range_succ, List.map_append,
          List.map_cons, List.map_nil, h2, h1]
      · have h3' := congrArg (fun l => l ++ [s.slotIdx]) h3
        simp only [List.append_assoc] at h3'
        simp only [images_append, images_cons_image, images_nil, List.append_assoc]
        exact h3'
      · simpa using h4
      · exact h5
      · intro _
        have h6' := h6 hst
        simp only [List.length_append, List.length_cons, List.length_nil]
        omega
      · intro hx
        rw [hst] at hx
        simp at hx
      · intro hb
        have := (h8 hb).2.2.1
        rw [hst] at this
        simp at this
      · intro hnb
        simpa using h9 hnb
      · exact h10
      · exact h11
      · exact h12
      · exact h13
      · exact h14
      · exact h15
      · exact h16
      · exact h17
    · refine ⟨?_, ?_, ?_, ?_, ?_, ?_, ?_, ?_, ?_, ?_, ?_, ?_, ?_, ?_, ?_, ?_, ?_⟩ <;> dsimp only
      · rw [h1]
        unfold BUFFER_SIZE
        omega
      · simp only [heldList_some, List.range_succ, List.map_append, List.map_cons,
          List.map_nil, h2, h1]
      · exact h3
      · exact h4
      · exact h5
      · intro _
        exact h6 hst
      · intro hx
        rw [hst] at hx
        simp at hx
      · intro hb
        have := (h8 hb).2.2.1
        rw [hst] at this
        simp at this
      · exact h9
      · exact h10
      · exact h11
      · exact h12
      · exact h13
      · exact h14
      · exact h15
      · exact h16
      · exact h17
  · exact ⟨h1, h2, h3, h4, h5, h6, h7, h8, h9, h10, h11, h12, h13, h14, h15, h16, h17⟩

theorem inv_workerOnMessage (s : Sys) (h : PipeInv s) : PipeInv (workerOnMessage s) := by
  obtain ⟨h1, h2, h3, h4, h5, h6, h7, h8, h9, h10, h11, h12, h13, h14, h15, h16, h17⟩ := h
  unfold workerOnMessage
  rcases hc : s.ctlChan with _ | ⟨c, rest⟩
  · exact ⟨h1, h2, h3, h4, h5, h6, h7, h8, h9, h10, h11, h12, h13, h14, h15, h16, h17⟩
  · cases c
    · -- 'start_generating'
      have hst : s.started = false := by
        cases hb : s.started
        · rfl
        · exfalso
          rw [hb] at h5
          simp at h5
          rw [hc] at h4
          simp only [startCount_cons_start] at h4
          omega
      obtain ⟨hg, hcr0, hhf, hsp, hsl, hco, hq, hctl, himg⟩ := h7 hst
      have h5' : s.grantCount = 0 := by
        rw [hst] at h5
        simpa using h5
      refine ⟨?_, ?_, ?_, ?_, ?_, ?_, ?_, ?_, ?_, ?_, ?_, ?_, ?_, ?_, ?_, ?_, ?_⟩ <;> dsimp only
      · exact h1
      · exact h2
      · exact h3
      · rw [hc] at h4
        simp only [startCount_cons_start] at h4
        rw [h5'] at h4 ⊢
        omega
      · simp [h5']
      · intro _
        rw [hsl, hsp]
        simp
      · intro hx
        simp at hx
      · intro hb
        have := (h8 hb).2.1
        rw [hc] at this
        simp at this
      · exact h9
      · exact h10
      · exact h11
      · exact h12
      · exact h13
      · exact h14
      · exact h15
      · exact h16
      · exact h17
    · -- 'queue_has_space'
      have hst : s.started = true := by
        cases hb : s.started
        · obtain ⟨_, _, _, _, _, _, _, hctl, _⟩ := h7 hb
          rcases hctl with hh | hh <;> rw [hc] at hh <;> simp at hh
        · rfl
      dsimp only
      rcases hh : s.heldFrame with _ | f
      · refine ⟨?_, ?_, ?_, ?_, ?_, ?_, ?_, ?_, ?_, ?_, ?_, ?_, ?_, ?_, ?_, ?_, ?_⟩ <;> dsimp only
        · exact h1
        · rw [hh] at h2
          exact h2
        · exact h3
        · rw [hc] at h4
          simp only [startCount_cons_space] at h4
          exact h4
        · exact h5
        · intro _
          have h6' := h6 hst
          omega
        · intro hx
          rw [hst] at hx
          simp at hx
        · intro hb
          have := (h8 hb).2.1
          rw [hc] at this
          simp at this
        · exact h9
        · exact h10
        · exact h11
        · exact h12
        · exact h13
        · exact h14
        · exact h15
        · exact h16
        · exact h17
      · refine ⟨?_, ?_, ?_, ?_, ?_, ?_, ?_, ?_, ?_, ?_, ?_, ?_, ?_, ?_, ?_, ?_, ?_⟩ <;> dsimp only
        · exact h1
        · rw [hh] at h2
          simp only [heldList_some] at h2
          simp only [heldList_none, List.append_nil]
          exact h2
        · have h3' := congrArg (fun l => l ++ [f]) h3
          simp only [List.append_assoc] at h3'
          simp only [images_append, images_cons_image, images_nil, List.append_assoc]
          exact h3'
        · rw [hc] at h4
          simp only [startCount_cons_space] at h4
          simpa using h4
        · exact h5
        · intro _
          have h6' := h6 hst
          simp only [List.length_append, List.length_cons, List.length_nil]
          omega
        · intro hx
          rw [hst] at hx
          simp at hx
        · intro hb
          have := (h8 hb).2.1
          rw [hc] at this
          simp at this
        · intro hnb
          simpa using h9 hnb
        · exact h10
        · exact h11
        · exact h12
        · exact h13
        · exact h14
        · exact h15
        · exact h16
        · exact h17

theorem inv_postWorkerError (s : Sys) (h : PipeInv s) : PipeInv (postWorkerError s) := by
  obtain ⟨h1, h2, h3, h4, h5, h6, h7, h8, h9, h10, h11, h12, h13, h14, h15, h16, h17⟩ := h
  unfold postWorkerError
  split
  · rename_i hst
    refine ⟨?_, ?_, ?_, ?_, ?_, ?_, ?_, ?_, ?_, ?_, ?_, ?_, ?_, ?_, ?_, ?_, ?_⟩ <;> dsimp only
    · exact h1
    · exact h2
    · simp only [images_append, images_cons_error, images_nil, List.append_nil]
      exact h3
    · simpa using h4
    · exact h5
    · exact h6
    · intro hx
      rw [hst] at hx
      simp at hx
    · intro hb
      have := (h8 hb).2.2.1
      rw [hst] at this
      simp at this
    · intro hnb
      simpa using h9 hnb
    · exact h10
    · exact h11
    · exact h12
    · exact h13
    · exact h14
    · exact h15
    · exact h16
    · exact h17
  · exact ⟨h1, h2, h3, h4, h5, h6, h7, h8, h9, h10, h11, h12, h13, h14, h15, h16, h17⟩

theorem fillBuffer_empty (fuel i : ℕ) (s : Sys) (hq : s.imageQueue = []) :
    fillBuffer (fuel + 1) i s =
      { s with receiveCalls := s.receiveCalls + 1, phase := Phase.fillWaiting i } := by
  unfold fillBuffer
  dsimp only
  rw [hq]

theorem inv_mainOnMessage (s : Sys) (h : PipeInv s) : PipeInv (mainOnMessage s) := by
  obtain ⟨h1, h2, h3, h4, h5, h6, h7, h8, h9, h10, h11, h12, h13, h14, h15, h16, h17⟩ := h
  unfold mainOnMessage
  rcases hc : s.imgChan with _ | ⟨m, rest⟩
  · exact ⟨h1, h2, h3, h4, h5, h6, h7, h8, h9, h10, h11, h12, h13, h14, h15, h16, h17⟩
  · cases m
    · -- 'ready'
      rcases hp : s.phase with _ | i | _ | _
      · -- boot
        obtain ⟨hic, hcc, hst, hco, hq⟩ := h8 hp
        have hrest : rest = [] := by
          rw [hc] at hic
          simpa using hic
        dsimp only
        rw [show (BUFFER_SIZE : ℕ) = 2 + 1 from rfl]
        rw [fillBuffer_empty 2 0 _ (by exact hq)]
        refine ⟨?_, ?_, ?_, ?_, ?_, ?_, ?_, ?_, ?_, ?_, ?_, ?_, ?_, ?_, ?_, ?_, ?_⟩ <;> dsimp only
        · exact h1
        · exact h2
        · rw [hc] at h3
          simpa using h3
        · rw [hc] at h4
          rw [hrest] at h4 ⊢
          simp only [readyCount_cons_ready, readyCount_nil, startCount_append,
            startCount_cons_start, startCount_nil] at h4 ⊢
          omega
        · exact h5
        · exact h6
        · intro _
          obtain ⟨ha, hb', hcf, hd, he, hf', hg, _, _⟩ := h7 hst
          refine ⟨ha, hb', hcf, hd, he, hf', hg, ?_, ?_⟩
          · rw [hcc]
            simp
          · rw [hrest]
            simp
        · intro hb
          simp at hb
        · intro _
          rw [hrest]
          simp
        · intro j hj
          simp only [Phase.fillWaiting.injEq] at hj
          subst hj
          exact ⟨by rw [hco]; rfl, by decide⟩
        · intro hx
          rcases hx with hx | hx <;> simp at hx
        · intro hx
          simp at hx
        · intro hx
          simp at hx
        · intro _
          exact hq
        · intro _
          exact h15 (Or.inl hp)
        · exact h16
        · exact h17
      · -- ready while filling: impossible, 'ready' is unique and consumed at boot
        exfalso
        have h9' := h9 (by rw [hp]; simp)
        rw [hc] at h9'
        simp at h9'
      · exfalso
        have h9' := h9 (by rw [hp]; simp)
        rw [hc] at h9'
        simp at h9'
      · exfalso
        have h9' := h9 (by rw [hp]; simp)
        rw [hc] at h9'
        simp at h9'
    · -- 'image f'
      rename_i f
      unfold queuePut
      rcases hp : s.phase with _ | i | _ | _
      · -- boot: impossible, no images before 'start_generating'
        exfalso
        have := (h8 hp).1
        rw [hc] at this
        simp at this
      · -- fillWaiting i: the put serves the waiter and fillBuffer continues
        have hq := h14 (by rw [hp]; rfl)
        have hfc := h10 i hp
        dsimp only
        rw [hq]
        simp only [List.nil_append]
        have hlen : ([] : List ℕ).length < MAX_QUEUE_SIZE := by decide
        simp only [List.length_nil, show ((0 : ℕ) < MAX_QUEUE_SIZE) = True by simp [MAX_QUEUE_SIZE, BUFFER_SIZE], if_true]
        unfold sendSpaceViaPut
        dsimp only
        split
        · -- i + 1 < BUFFER_SIZE: fillBuffer registers the next waiter
          rename_i hi1
          rw [show (BUFFER_SIZE : ℕ) = 2 + 1 from rfl, fillBuffer_empty 2 (i + 1) _ (by rfl)]
          refine ⟨?_, ?_, ?_, ?_, ?_, ?_, ?_, ?_, ?_, ?_, ?_, ?_, ?_, ?_, ?_, ?_, ?_⟩ <;> dsimp only
          · exact h1
          · exact h2
          · rw [hc] at h3
            rw [hq] at h3
            simp only [images_cons_image, List.append_assoc, List.append_nil, List.nil_append,
              List.singleton_append, List.cons_append] at h3 ⊢
            exact h3
          · rw [hc] at h4
            simp only [readyCount_cons_image, startCount_append, startCount_cons_space,
              startCount_nil] at h4 ⊢
            omega
          · exact h5
          · exact h6
          · intro hf'
            exfalso
            rcases (h7 hf').2.2.2.2.2.2.2.2 with hh | hh <;> rw [hc] at hh <;> simp at hh
          · intro hb
            simp at hb
          · intro _
            have h9' := h9 (by rw [hp]; simp)
            rw [hc] at h9'
            simpa using h9'
          · intro j hj
            simp only [Phase.fillWaiting.injEq] at hj
            simp only [List.length_append, List.length_cons, List.length_nil]
            omega
          · intro hx
            rcases hx with hx | hx <;> simp at hx
          · intro hx
            simp at hx
          · intro hx
            simp at hx
          · intro _
            rfl
          · intro _
            exact h15 (Or.inr ⟨i, hp⟩)
          · exact h16
          · omega
        · -- i + 1 = BUFFER_SIZE: the fill is complete, animate starts
          rename_i hi1
          refine ⟨?_, ?_, ?_, ?_, ?_, ?_, ?_, ?_, ?_, ?_, ?_, ?_, ?_, ?_, ?_, ?_, ?_⟩ <;> dsimp only
          · exact h1
          · exact h2
          · rw [hc] at h3
            rw [hq] at h3
            simp only [images_cons_image, List.append_assoc, List.append_nil, List.nil_append,
              List.singleton_append, List.cons_append] at h3 ⊢
            exact h3
          · rw [hc] at h4
            simp only [readyCount_cons_image, startCount_append, startCount_cons_space,
              startCount_nil] at h4 ⊢
            omega
          · exact h5
          · exact h6
          · intro hf'
            exfalso
            rcases (h7 hf').2.2.2.2.2.2.2.2 with hh | hh <;> rw [hc] at hh <;> simp at hh
          · intro hb
            simp at hb
          · intro _
            have h9' := h9 (by rw [hp]; simp)
            rw [hc] at h9'
            simpa using h9'
          · intro j hj
            simp at hj
          · intro _
            obtain ⟨hl1, hl2⟩ := hfc
            simp only [List.length_append, List.length_cons, List.length_nil]
            unfold BUFFER_SIZE at hi1 hl2 ⊢
            omega
          · intro _
            obtain ⟨hcu, hnx⟩ := h15 (Or.inr ⟨i, hp⟩)
            obtain ⟨hl1, hl2⟩ := hfc
            rw [hcu, hnx]
            simp only [List.length_append, List.length_cons, List.length_nil]
            unfold BUFFER_SIZE at hi1 hl2 ⊢
            constructor <;> omega
          · intro hx
            simp at hx
          · intro hx
            simp [queueWaiters] at hx
          · intro hx
            rcases hx with hx | ⟨j, hx⟩ <;> simp at hx
          · exact h16
          · omega
      · -- running: plain enqueue, possibly followed by a space notification
        dsimp only
        split
        · rename_i hlen
          unfold sendSpaceViaPut
          refine ⟨?_, ?_, ?_, ?_, ?_, ?_, ?_, ?_, ?_, ?_, ?_, ?_, ?_, ?_, ?_, ?_, ?_⟩ <;> dsimp only
          · exact h1
          · exact h2
          · rw [hc] at h3
            simp only [images_cons_image, List.append_assoc, List.append_nil, List.nil_append,
              List.singleton_append, List.cons_append] at h3 ⊢
            exact h3
          · rw [hc] at h4
            simp only [readyCount_cons_image, startCount_append, startCount_cons_space,
              startCount_nil] at h4 ⊢
            omega
          · exact h5
          · exact h6
          · intro hf'
            exfalso
            rcases (h7 hf').2.2.2.2.2.2.2.2 with hh | hh <;> rw [hc] at hh <;> simp at hh
          · intro hb
            simp at hb
          · intro _
            have h9' := h9 (by rw [hp]; simp)
            rw [hc] at h9'
            simpa using h9'
          · intro j hj
            simp at hj
          · intro _
            exact h11 (Or.inl hp)
          · intro _
            exact h12 hp
          · intro hx
            simp at hx
          · intro hx
            simp [queueWaiters] at hx
          · intro hx
            rcases hx with hx | ⟨j, hx⟩ <;> simp at hx
          · exact h16
          · omega
        · refine ⟨?_, ?_, ?_, ?_, ?_, ?_, ?_, ?_, ?_, ?_, ?_, ?_, ?_, ?_, ?_, ?_, ?_⟩ <;> dsimp only
          · exact h1
          · exact h2
          · rw [hc] at h3
            simp only [images_cons_image, List.append_assoc, List.append_nil, List.nil_append,
              List.singleton_append, List.cons_append] at h3 ⊢
            exact h3
          · rw [hc] at h4
            simpa using h4
          · exact h5
          · exact h6
          · intro hf'
            exfalso
            rcases (h7 hf').2.2.2.2.2.2.2.2 with hh | hh <;> rw [hc] at hh <;> simp at hh
          · intro hb
            simp at hb
          · intro _
            have h9' := h9 (by rw [hp]; simp)
            rw [hc] at h9'
            simpa using h9'
          · intro j hj
            simp at hj
          · intro _
            exact h11 (Or.inl hp)
          · intro _
            exact h12 hp
          · intro hx
            simp at hx
          · intro hx
            simp [queueWaiters] at hx
          · intro hx
            rcases hx with hx | ⟨j, hx⟩ <;> simp at hx
          · exact h16
          · exact h17
      · -- rotWaiting: the put resolves the rotation dequeue
        have hq := h14 (by rw [hp]; rfl)
        have hrr := h13 hp
        have hrc := h11 (Or.inr hp)
        -- the slot of the frame being handed over is determined by its index
        have hslot : f = s.consumed.length % BUFFER_SIZE := by
          have h3' := h3
          rw [hc, hq] at h3'
          simp only [images_cons_image, List.append_assoc, List.append_nil, List.nil_append] at h3'
          have hcomb : s.consumed ++ f :: (images rest ++ heldList s.heldFrame) =
              (List.range s.genCount).map (· % BUFFER_SIZE) := by
            rw [← h2, ← h3']
            simp [List.append_assoc]
          exact slot_at_index _ _ _ _ hcomb
        dsimp only
        rw [hq]
        simp only [List.nil_append]
        simp only [List.length_nil, show ((0 : ℕ) < MAX_QUEUE_SIZE) = True by simp [MAX_QUEUE_SIZE, BUFFER_SIZE], if_true]
        unfold sendSpaceViaPut
        refine ⟨?_, ?_, ?_, ?_, ?_, ?_, ?_, ?_, ?_, ?_, ?_, ?_, ?_, ?_, ?_, ?_, ?_⟩ <;> dsimp only
        · exact h1
        · exact h2
        · rw [hc] at h3
          rw [hq] at h3
          simp only [images_cons_image, List.append_assoc, List.append_nil, List.nil_append,
            List.singleton_append, List.cons_append] at h3 ⊢
          exact h3
        · rw [hc] at h4
          simp only [readyCount_cons_image, startCount_append, startCount_cons_space,
            startCount_nil] at h4 ⊢
          omega
        · exact h5
        · exact h6
        · intro hf'
          exfalso
          rcases (h7 hf').2.2.2.2.2.2.2.2 with hh | hh <;> rw [hc] at hh <;> simp at hh
        · intro hb
          simp at hb
        · intro _
          have h9' := h9 (by rw [hp]; simp)
          rw [hc] at h9'
          simpa using h9'
        · intro j hj
          simp at hj
        · intro _
          simp only [List.length_append, List.length_cons, List.length_nil]
          omega
        · intro _
          obtain ⟨hcu, hnx⟩ := hrr
          rw [hcu, hnx]
          have hL : (s.consumed ++ [f]).length = s.consumed.length + 1 := by
            simp
          rw [hL]
          constructor <;> (congr 1)
        · intro hx
          simp at hx
        · intro hx
          simp [queueWaiters] at hx
        · intro hx
          rcases hx with hx | ⟨j, hx⟩ <;> simp at hx
        · intro p hmem
          rcases List.mem_append.mp hmem with hin | hin
          · exact h16 p hin
          · simp only [List.mem_singleton] at hin
            subst hin
            dsimp only
            rw [hslot, hrr.2]
            unfold BUFFER_SIZE
            omega
        · omega
    · -- 'error'
      refine ⟨?_, ?_, ?_, ?_, ?_, ?_, ?_, ?_, ?_, ?_, ?_, ?_, ?_, ?_, ?_, ?_, ?_⟩ <;> dsimp only
      · exact h1
      · exact h2
      · rw [hc] at h3
        simpa using h3
      · rw [hc] at h4
        simpa using h4
      · exact h5
      · exact h6
      · intro hf'
        exfalso
        rcases (h7 hf').2.2.2.2.2.2.2.2 with hh | hh <;> rw [hc] at hh <;> simp at hh
      · intro hb
        have := (h8 hb).1
        rw [hc] at this
        simp at this
      · intro hnb
        have h9' := h9 hnb
        rw [hc] at h9'
        simpa using h9'
      · exact h10
      · exact h11
      · exact h12
      · exact h13
      · exact h14
      · exact h15
      · exact h16
      · exact h17

theorem processPU_shape (s : Sys) :
    ∃ o r, processProgressiveUpload s = { s with pendingUpload := o, retired := r } := by
  unfold processProgressiveUpload
  rcases hpu : s.pendingUpload with _ | pu
  · exact ⟨s.pendingUpload, s.retired, rfl⟩
  · dsimp only
    split
    · exact ⟨none, s.retired + 1, rfl⟩
    · refine ⟨_, s.retired, rfl⟩

theorem inv_animate (s : Sys) (h : PipeInv s) : PipeInv (animate s) := by
  obtain ⟨h1, h2, h3, h4, h5, h6, h7, h8, h9, h10, h11, h12, h13, h14, h15, h16, h17⟩ := h
  unfold animate
  split
  · rename_i hp
    obtain ⟨o, r, hs1⟩ := processPU_shape s
    rw [hs1]
    dsimp only
    split
    · rename_i ht
      rcases hq : s.imageQueue with _ | ⟨f, rest⟩
      · -- queue empty: suspend on the rotation dequeue
        refine ⟨?_, ?_, ?_, ?_, ?_, ?_, ?_, ?_, ?_, ?_, ?_, ?_, ?_, ?_, ?_, ?_, ?_⟩ <;> dsimp only
        · exact h1
        · exact h2
        · rw [hq] at h3
          simpa using h3
        · exact h4
        · exact h5
        · exact h6
        · intro hf'
          obtain ⟨a1, a2, a3, a4, a5, a6, a7, a8, a9⟩ := h7 hf'
          exact ⟨a1, a2, a3, a4, a5, a6, rfl, a8, a9⟩
        · intro hb
          simp at hb
        · intro _
          exact h9 (by rw [hp]; simp)
        · intro j hj
          simp at hj
        · intro _
          exact h11 (Or.inl hp)
        · intro hx
          simp at hx
        · intro _
          obtain ⟨hcu, hnx⟩ := h12 hp
          rw [hcu, hnx]
          unfold BUFFER_SIZE
          constructor <;> omega
        · intro _
          rfl
        · intro hx
          rcases hx with hx | ⟨j, hx⟩ <;> simp at hx
        · exact h16
        · exact h17
      · -- queue nonempty: immediate rotation dequeue
        have hrc := h11 (Or.inl hp)
        have hri := h12 hp
        have hslot : f = s.consumed.length % BUFFER_SIZE := by
          have h3' := h3
          rw [hq] at h3'
          have hcomb : s.consumed ++ f :: (rest ++ images s.imgChan ++ heldList s.heldFrame) =
              (List.range s.genCount).map (· % BUFFER_SIZE) := by
            rw [← h2, ← h3']
            simp [List.append_assoc]
          exact slot_at_index _ _ _ _ hcomb
        dsimp only
        split
        · rename_i hlen
          unfold sendSpaceViaGet
          refine ⟨?_, ?_, ?_, ?_, ?_, ?_, ?_, ?_, ?_, ?_, ?_, ?_, ?_, ?_, ?_, ?_, ?_⟩ <;> dsimp only
          · exact h1
          · exact h2
          · rw [hq] at h3
            simp only [List.append_assoc, List.cons_append, List.nil_append,
              List.singleton_append] at h3 ⊢
            exact h3
          · simpa using h4
          · exact h5
          · exact h6
          · intro hf'
            exfalso
            have := (h7 hf').2.2.2.2.2.2.1
            rw [hq] at this
            simp at this
          · intro hb
            rw [hp] at hb
            simp at hb
          · intro _
            exact h9 (by rw [hp]; simp)
          · intro j hj
            rw [hp] at hj
            simp at hj
          · intro _
            simp only [List.length_append, List.length_cons, List.length_nil]
            unfold BUFFER_SIZE at hrc ⊢
            omega
          · intro _
            obtain ⟨hcu, hnx⟩ := hri
            rw [hcu, hnx]
            simp only [List.length_append, List.length_cons, List.length_nil]
            unfold BUFFER_SIZE
            constructor <;> omega
          · intro hx
            rw [hp] at hx
            simp at hx
          · intro hx
            rw [hp] at hx
            simp [queueWaiters] at hx
          · intro hx
            rcases hx with hx | ⟨j, hx⟩ <;> rw [hp] at hx <;> simp at hx
          · intro p hmem
            rcases List.mem_append.mp hmem with hin | hin
            · exact h16 p hin
            · simp only [List.mem_singleton] at hin
              subst hin
              dsimp only
              rw [hslot, hri.2]
              unfold BUFFER_SIZE
              omega
          · omega
        · refine ⟨?_, ?_, ?_, ?_, ?_, ?_, ?_, ?_, ?_, ?_, ?_, ?_, ?_, ?_, ?_, ?_, ?_⟩ <;> dsimp only
          · exact h1
          · exact h2
          · rw [hq] at h3
            simp only [List.append_assoc, List.cons_append, List.nil_append,
              List.singleton_append] at h3 ⊢
            exact h3
          · exact h4
          · exact h5
          · exact h6
          · intro hf'
            exfalso
            have := (h7 hf').2.2.2.2.2.2.1
            rw [hq] at this
            simp at this
          · intro hb
            rw [hp] at hb
            simp at hb
          · intro _
            exact h9 (by rw [hp]; simp)
          · intro j hj
            rw [hp] at hj
            simp at hj
          · intro _
            simp only [List.length_append, List.length_cons, List.length_nil]
            unfold BUFFER_SIZE at hrc ⊢
            omega
          · intro _
            obtain ⟨hcu, hnx⟩ := hri
            rw [hcu, hnx]
            simp only [List.length_append, List.length_cons, List.length_nil]
            unfold BUFFER_SIZE
            constructor <;> omega
          · intro hx
            rw [hp] at hx
            simp at hx
          · intro hx
            rw [hp] at hx
            simp [queueWaiters] at hx
          · intro hx
            rcases hx with hx | ⟨j, hx⟩ <;> rw [hp] at hx <;> simp at hx
          · intro p hmem
            rcases List.mem_append.mp hmem with hin | hin
            · exact h16 p hin
            · simp only [List.mem_singleton] at hin
              subst hin
              dsimp only
              rw [hslot, hri.2]
              unfold BUFFER_SIZE
              omega
          · exact h17
    · exact ⟨h1, h2, h3, h4, h5, h6, h7, h8, h9, h10, h11, h12, h13, h14, h15, h16, h17⟩
  · exact ⟨h1, h2, h3, h4, h5, h6, h7, h8, h9, h10, h11, h12, h13, h14, h15, h16, h17⟩

theorem inv_step (e : Ev) (s : Sys) (h : PipeInv s) : PipeInv (step e s) := by
  cases e
  · exact inv_generateAndSend s h
  · exact inv_workerOnMessage s h
  · exact inv_mainOnMessage s h
  · exact inv_animate s h
  · exact inv_postWorkerError s h

theorem inv_foldl (evs : List Ev) :
    ∀ s, PipeInv s → PipeInv (evs.foldl (fun s e => step e s) s) := by
  induction evs with
  | nil => intro s h; exact h
  | cons e evs ih =>
    intro s h
    exact ih _ (inv_step e s h)

/-- Every reachable state of the pipeline satisfies the invariant. -/
theorem inv_run (evs : List Ev) : PipeInv (run evs) :=
  inv_foldl evs initSys pipeInv_initSys

/-- In every reachable state the consumed sequence is an initial segment of
the cyclic slot pattern `0, 1, 2, 0, 1, 2, ...`. -/
theorem consumed_is_slot_pattern (s : Sys) (h : PipeInv s) :
    s.consumed = (List.range s.consumed.length).map (· % BUFFER_SIZE) := by
  have hcomb : s.consumed ++
      (s.imageQueue ++ (images s.imgChan ++ heldList s.heldFrame)) =
      (List.range s.genCount).map (· % BUFFER_SIZE) := by
    rw [← h.gen_log, ← h.flow]
    simp [List.append_assoc]
  exact left_factor_map_range _ _ _ hcomb

/-- The machine's ℕ-valued chunk computation agrees with the source's exact
formula at the clock value `t = k * dt`. -/
theorem uploadChunkTick_eq (k d : ℕ) :
    uploadChunkTick k d = uploadChunk ((k : ℚ) * dt) d := by
  unfold uploadChunkTick uploadChunk dt
  have h1 : (k : ℚ) * (1 / (steps : ℚ)) = (k : ℚ) / (steps : ℚ) := by ring
  rw [h1, framesLeftN_eval steps k (by decide)]

/-- The machine's rotation condition agrees with the source's `t > 1.0` at
the clock value `t = k * dt`. -/
theorem clock_gt_one (k : ℕ) : steps < k ↔ 1 < (k : ℚ) * dt := by
  unfold dt
  have hs : (0 : ℚ) < (steps : ℚ) := by norm_num [steps]
  rw [mul_one_div, lt_div_iff₀ hs, one_mul]
  exact Nat.cast_lt.symm

/-! ### Claims -/

/-- C1 (counterexample): the credit invariant `credits + framesInFlight = N`
fails on the code.  After the schedule `exC1` the pipeline has started, both
channels are empty (so no reading of "in-transit credits" can repair the
count), the producer-side credit count is `0`, nine frames have been
produced and only the three fill-phase frames have been retired: the frames
in flight number `9 - 3 = 6 ≠ 3 = N`, because `queuePut`/`queueGet` hand
out 'queue_has_space' credits on enqueue/dequeue rather than once per
retirement. -/
theorem credit_invariant_counterexample :
    (run exC1).started = true ∧ (run exC1).ctlChan = [] ∧ (run exC1).imgChan = [] ∧
    (run exC1).queueSpaceAvailable = 0 ∧ (run exC1).genCount = 9 ∧
    (run exC1).retired = 3 ∧ (run exC1).imageQueue.length = 5 ∧
    (((run exC1).queueSpaceAvailable + ((run exC1).genCount - (run exC1).retired)
        == BUFFER_SIZE) = false) := by
  decide

/-- C1 (amended): the initial `N` credits are granted exactly once, by the
'start_generating' handler (`grantCount` is `1` iff generation has started,
and can never exceed `1`); and the true credit ledger is
`credits + framesSent = N + spaceNotificationsProcessed` at every observable
instant after the start — the spec's `credits + framesInFlight = N` does
not hold because notifications are issued on enqueue/dequeue, not on
retirement. -/
theorem credits_granted_once_and_balance (evs : List Ev) :
    (run evs).grantCount = (if (run evs).started = true then 1 else 0) ∧
    ((run evs).started = true →
      (run evs).queueSpaceAvailable + (run evs).sentLog.length =
        BUFFER_SIZE + (run evs).spaceProcessed) :=
  ⟨(inv_run evs).grant_started, (inv_run evs).credit_balance⟩

/-- C1 (witness): the amended credit ledger evaluated after the fill
schedule. -/
theorem credits_granted_once_and_balance_witness :
    (run exFill).started = true ∧
    (run exFill).queueSpaceAvailable + (run exFill).sentLog.length =
      BUFFER_SIZE + (run exFill).spaceProcessed :=
  ⟨by decide, (credits_granted_once_and_balance exFill).2 (by decide)⟩

set_option maxRecDepth 4000 in
/-- C2 (counterexample): 'queue_has_space' is not sent exactly once per
retired frame.  After the schedule `exC2` four such messages have been sent
while only three frames are retired — the fourth message was posted by
`queuePut` at enqueue time, an event the claim says never produces one. -/
theorem space_per_retirement_counterexample :
    (run exC2).spaceSent = 4 ∧ (run exC2).retired = 3 ∧
    (((run exC2).spaceSent == (run exC2).retired) = false) := by
  decide

/-- C2 (amended): every 'queue_has_space' message originates from `queuePut`
(after a put that leaves the queue below `MAX_QUEUE_SIZE`) or from
`queueGet`'s immediate branch (after a dequeue that leaves the queue below
`MAX_QUEUE_SIZE`); the upload-advance step `processProgressiveUpload` —
including the invocation that completes a pending upload and retires its
frame — never posts one. -/
theorem space_notification_sites :
    (∀ evs : List Ev,
      (run evs).spaceSent = (run evs).putsBelow + (run evs).getsBelow) ∧
    (∀ s : Sys, (processProgressiveUpload s).spaceSent = s.spaceSent ∧
      (processProgressiveUpload s).ctlChan = s.ctlChan) := by
  constructor
  · intro evs
    exact (inv_run evs).space_sites
  · intro s
    obtain ⟨o, r, hs⟩ := processPU_shape s
    rw [hs]
    exact ⟨rfl, rfl⟩

/-- C3: coverage of the progressive upload.  For any `H ≥ 1` and
`steps ≥ 1` (`dt = 1/steps`), advancing a fresh pending upload once per
tick with the source's `rowsThisTick` formula (clock `t = k * dt` at the
`k`-th tick) transfers rows that sum to exactly `H`, form consecutive
disjoint intervals covering `[0, H)` with no gap and no overlap, and the
upload completes at tick `steps` — at which `t = 1.0`, hence strictly
before the first tick at which `t` exceeds `1.0`; in particular it is
already complete at every tick whose clock value exceeds `1.0`. -/
theorem progressive_upload_coverage (H st : ℕ) (_hH : 1 ≤ H) (hst : 1 ≤ st) :
    uploadRun H st st = H ∧
    (∀ k, uploadRun H st k ≤ uploadRun H st (k + 1)) ∧
    (∀ k, uploadRun H st k ≤ H) ∧
    (∑ k in Finset.range st, (uploadRun H st (k + 1) - uploadRun H st k)) = H ∧
    (∀ r, r < H → ∃ k, k < st ∧ uploadRun H st k ≤ r ∧ r < uploadRun H st (k + 1)) ∧
    (∀ j k, j < k → uploadRun H st (j + 1) ≤ uploadRun H st k) ∧
    (∀ k : ℕ, 1 < (k : ℚ) / (st : ℚ) → uploadRun H st k = H) := by
  have hm := uploadRun_mono_succ H st
  have hc := uploadRun_steps_complete H st hst
  refine ⟨hc, hm, uploadRun_le H st, ?_, ?_, ?_, ?_⟩
  · rw [telescope_sum (uploadRun H st) rfl hm st, hc]
  · intro r hr
    exact cover_of_monotone (uploadRun H st) st r (by simp [uploadRun]) (by rw [hc]; exact hr)
  · intro j k hjk
    exact uploadRun_monotone H st hjk
  · intro k hk
    have hklt : st < k := by
      have hs0 : (0 : ℚ) < (st : ℚ) := by
        have : (0 : ℕ) < st := hst
        exact_mod_cast this
      rw [lt_div_iff₀ hs0, one_mul] at hk
      exact_mod_cast hk
    exact uploadRun_late H st hst k (by omega)

/-- C3 (witness): the concrete configuration of the source, `H = 128` rows
per tile-row block with `steps = 10` (Scenario C uses H = 128). -/
theorem progressive_upload_coverage_witness :
    uploadRun 128 10 10 = 128 ∧
    (∑ k in Finset.range 10, (uploadRun 128 10 (k + 1) - uploadRun 128 10 k)) = 128 :=
  ⟨(progressive_upload_coverage 128 10 (by decide) (by decide)).1,
   (progressive_upload_coverage 128 10 (by decide) (by decide)).2.2.2.1⟩

/-- C4: FIFO ordering and conservation.  In every reachable state — i.e.
under every interleaving of message delivery, generation and rendering —
the slots consumed via `queueGet` (in both the Filling and Running states),
followed by the slots still queued and the slots still in transit, are
exactly the slots sent by the producer, in order: nothing is reordered,
duplicated or lost. -/
theorem fifo_ordering (evs : List Ev) :
    (run evs).consumed ++ ((run evs).imageQueue ++ images (run evs).imgChan) =
      (run evs).sentLog := by
  have hf := (inv_run evs).flow
  rw [← hf]
  simp [List.append_assoc]

/-- C5: the slot-cycle invariant.  In every reachable state the `i`-th
consumed frame carries slot `i % BUFFER_SIZE`; once the Running state has
begun (or its rotation dequeue is pending) at least `BUFFER_SIZE` frames
were consumed, and the three Filling-phase receives returned slots
`[0, 1, 2]` in that order. -/
theorem slot_cycle_invariant (evs : List Ev) :
    (run evs).consumed =
      (List.range (run evs).consumed.length).map (· % BUFFER_SIZE) ∧
    ((run evs).phase = Phase.running ∨ (run evs).phase = Phase.rotWaiting →
      BUFFER_SIZE ≤ (run evs).consumed.length ∧
      (run evs).consumed.take BUFFER_SIZE = [0, 1, 2]) := by
  have hI := inv_run evs
  have hmap := consumed_is_slot_pattern _ hI
  refine ⟨hmap, ?_⟩
  intro hx
  have hlen := hI.run_count hx
  refine ⟨hlen, ?_⟩
  rw [hmap, ← List.map_take, List.take_range, Nat.min_eq_left hlen]
  decide

/-- C5 (witness): after the fill schedule the animation is running and the
first three consumed slots are `0, 1, 2`. -/
theorem slot_cycle_invariant_witness :
    (run exFill).phase = Phase.running ∧
    (run exFill).consumed.take BUFFER_SIZE = [0, 1, 2] :=
  ⟨by decide, ((slot_cycle_invariant exFill).2 (Or.inl (by decide))).2⟩

set_option maxRecDepth 4000 in
/-- C6 (counterexample): at the first rotation of `exC6` the dequeued frame
carries slot `0` while the post-rotation `nextTexIdx` is `2` — the claimed
equality `slot = next` is false — and `violationCount` stays `0`: no
assertion in the code compares the dequeued slot with `nextTexIdx`, so no
ProtocolViolation is raised either. -/
theorem rotation_slot_equals_next_counterexample :
    (run exC6).rotLog = [(0, 2)] ∧ (run exC6).violationCount = 0 ∧
    (((run exC6).rotLog.all fun p => p.1 == p.2) = false) := by
  decide

/-- C6 (amended): at every rotation dequeue, in every reachable state, the
slot of the dequeued frame equals `(nextTexIdx + 1) % BUFFER_SIZE` — the
slot just vacated by the rotation (the pre-rotation `currTexIdx`) — not
`nextTexIdx` itself; the code contains no assertion on this relation. -/
theorem rotation_dequeue_slot_vacated (evs : List Ev) :
    ∀ p ∈ (run evs).rotLog, p.1 = (p.2 + 1) % BUFFER_SIZE :=
  (inv_run evs).rot_log

set_option maxRecDepth 4000 in
/-- C6 (witness): the first rotation of `exC6` dequeues slot `0` with
`nextTexIdx = 2`, and `0 = (2 + 1) % 3`. -/
theorem rotation_dequeue_slot_vacated_witness :
    ((0 : ℕ), (2 : ℕ)) ∈ (run exC6).rotLog ∧ (0 : ℕ) = ((2 : ℕ) + 1) % BUFFER_SIZE :=
  ⟨by decide, rotation_dequeue_slot_vacated exC6 (0, 2) (by decide)⟩

set_option maxRecDepth 4000 in
/-- C7 (counterexample): an 'error' message is not terminal.  After
`exC7pre` the error has been received (and alerted), with three `queueGet`
calls issued so far; twelve more animation ticks later the loop has reached
its next rotation and issued a fourth `queueGet`, which waits forever on an
empty queue — the consumer did not stop issuing `receive()` calls. -/
theorem error_terminal_counterexample :
    (run exC7pre).errorReceived = true ∧ (run exC7pre).alertShown = true ∧
    (run exC7pre).receiveCalls = 3 ∧ (run exC7).receiveCalls = 4 ∧
    (run exC7).phase = Phase.rotWaiting ∧ (run exC7).imageQueue = [] := by
  decide

/-- C7 (amended): processing an 'error' message only records and reports it
(`console.error` + `alert`), leaving every other component of the state —
in particular the consumer phase, the queue and the animation state —
untouched; no mechanism stops the animation loop or its future `queueGet`
calls. -/
theorem error_message_only_sets_flags (s : Sys) (rest : List Msg)
    (hc : s.imgChan = Msg.error :: rest) :
    step Ev.deliverImg s =
      { s with imgChan := rest, errorReceived := true, alertShown := true } := by
  show mainOnMessage s = _
  unfold mainOnMessage
  rw [hc]

/-- C7 (witness): the error-processing step on a concrete state. -/
theorem error_message_only_sets_flags_witness :
    step Ev.deliverImg { c8state with imgChan := [Msg.error] } =
      { c8state with imgChan := [], errorReceived := true, alertShown := true } :=
  error_message_only_sets_flags { c8state with imgChan := [Msg.error] } [] rfl

/-- C8 (counterexample): an incomplete `pendingUpload` at the moment
rotation becomes due is not detected.  In the fault-injected state
`c8state` (`t = 11/10 > 1.0`, `rowsUploaded = 100 < g_tex_H`), one
animation tick completes the upload in STEP 1 before STEP 2's check, logs
no violation (`violationCount` stays `0`), and silently proceeds with the
rotation (`currTexIdx` becomes `1`) and the next dequeue (slot `2` is
consumed and becomes the new `pendingUpload`). -/
theorem rotation_assertion_counterexample :
    steps < c8state.tTicks ∧
    c8state.pendingUpload = some { slotIdx := 1, pboIdx := 1, rowsUploaded := 100 } ∧
    (100 < g_tex_H) ∧
    (step Ev.tick c8state).violationCount = 0 ∧
    (step Ev.tick c8state).currTexIdx = 1 ∧
    (step Ev.tick c8state).consumed = [2] ∧
    (step Ev.tick c8state).pendingUpload =
      some { slotIdx := 2, pboIdx := 2, rowsUploaded := 0 } := by
  decide

/-- C8 (amended): when the rotation tick begins with the clock past `1.0`
(`t = tTicks * dt > 1.0`) and a still-incomplete `pendingUpload`, STEP 1's
upload advance — whose `framesLeft` is clamped to `1` — completes the
upload in one final chunk, so STEP 2's check observes no pending upload and
the rotation proceeds without raising the ProtocolViolation: the logged
assertion is unreachable from an incomplete upload at rotation time. -/
theorem rotation_pending_upload_cleared_before_check (s : Sys) (pu : PU)
    (hp : s.phase = Phase.running) (ht : 1 < (s.tTicks : ℚ) * dt)
    (_hpu : s.pendingUpload = some pu) (_hinc : pu.rowsUploaded < g_tex_H) :
    (processProgressiveUpload s).pendingUpload = none ∧
    (step Ev.tick s).violationCount = s.violationCount := by
  have htn : steps < s.tTicks := (clock_gt_one s.tTicks).mpr ht
  have hclear := processPU_clears_late s htn
  refine ⟨hclear, ?_⟩
  show (animate s).violationCount = s.violationCount
  unfold animate
  rw [if_pos hp]
  obtain ⟨o, r, hs1⟩ := processPU_shape s
  have ho : o = none := by
    rw [hs1] at hclear
    exact hclear
  rw [hs1, ho]
  dsimp only
  rw [if_pos (show steps < s.tTicks from htn)]
  rcases hq : s.imageQueue with _ | ⟨f, rest⟩
  · rfl
  · dsimp only
    split
    · unfold sendSpaceViaGet
      rfl
    · rfl

/-- C8 (witness): the amended behaviour evaluated at the fault-injected
state `c8state`. -/
theorem rotation_pending_upload_cleared_before_check_witness :
    (processProgressiveUpload c8state).pendingUpload = none ∧
    (step Ev.tick c8state).violationCount = c8state.violationCount :=
  rotation_pending_upload_cleared_before_check c8state
    { slotIdx := 1, pboIdx := 1, rowsUploaded := 100 }
    rfl (by norm_num [dt, steps, c8state]) rfl (by decide)

/-- C9: the handoff queue never simultaneously holds a buffered frame and a
waiting consumer: in every reachable state `imageQueue` is empty or
`queueWaiters` is empty, because `queueGet` registers a waiter only on an
empty queue and `queuePut` immediately serves the oldest waiter. -/
theorem queue_and_waiters_not_both_nonempty (evs : List Ev) :
    (run evs).imageQueue = [] ∨ queueWaiters (run evs).phase = 0 := by
  have hI := inv_run evs
  rcases hw : queueWaiters (run evs).phase with _ | n
  · exact Or.inr rfl
  · left
    apply hI.wait_empty
    have hle : queueWaiters (run evs).phase ≤ 1 := by
      cases (run evs).phase <;> simp [queueWaiters]
    omega

/-- C9 (witness): after the fill schedule the queue is empty. -/
theorem queue_and_waiters_not_both_nonempty_witness :
    (run exFill).imageQueue = [] ∨ queueWaiters (run exFill).phase = 0 :=
  queue_and_waiters_not_both_nonempty exFill

/-- C10: the upload-advance step.  With no `pendingUpload` the step changes
nothing.  On an incomplete `pendingUpload` (`rowsUploaded < g_tex_H`) it
transfers at least `1` and at most `g_tex_H - rowsUploaded` rows (so
`rowsUploaded` strictly increases and never exceeds `g_tex_H`), clearing
the record exactly when `g_tex_H` is reached; the per-tick chunk equals the
source's exact formula at the clock value `t = tTicks * dt`; and any fresh
pending upload is cleared after at most `g_tex_H` advance invocations,
whatever clock values those invocations observe. -/
theorem upload_advance_step_properties :
    (∀ s : Sys, s.pendingUpload = none → processProgressiveUpload s = s) ∧
    (∀ (s : Sys) (pu : PU), s.pendingUpload = some pu → pu.rowsUploaded < g_tex_H →
      1 ≤ uploadChunkTick s.tTicks pu.rowsUploaded ∧
      uploadChunkTick s.tTicks pu.rowsUploaded ≤ g_tex_H - pu.rowsUploaded ∧
      (processProgressiveUpload s).pendingUpload =
        (if g_tex_H ≤ pu.rowsUploaded + uploadChunkTick s.tTicks pu.rowsUploaded then none
         else some { slotIdx := pu.slotIdx, pboIdx := pu.pboIdx,
                     rowsUploaded := pu.rowsUploaded + uploadChunkTick s.tTicks pu.rowsUploaded })) ∧
    (∀ k d : ℕ, uploadChunkTick k d = uploadChunk ((k : ℚ) * dt) d) ∧
    (∀ (ts : ℕ → ℚ) (n : ℕ), g_tex_H ≤ n → iterAdvance ts n = g_tex_H) := by
  refine ⟨?_, ?_, uploadChunkTick_eq, iterAdvance_complete⟩
  · intro s hn
    unfold processProgressiveUpload
    rw [hn]
  · intro s pu hpu hlt
    refine ⟨rowsThisTick_pos _ _ (by omega), rowsThisTick_le _ _, ?_⟩
    unfold processProgressiveUpload
    rw [hpu]
    dsimp only
    split
    · rfl
    · rfl

/-- C10 (witness): the advance step evaluated at the concrete state
`c8state` (one incomplete upload, 412 rows left, clock past `1.0`). -/
theorem upload_advance_step_properties_witness :
    1 ≤ uploadChunkTick c8state.tTicks 100 ∧
    uploadChunkTick c8state.tTicks 100 ≤ g_tex_H - 100 ∧
    (processProgressiveUpload c8state).pendingUpload =
      (if g_tex_H ≤ 100 + uploadChunkTick c8state.tTicks 100 then none
       else some { slotIdx := 1, pboIdx := 1,
                   rowsUploaded := 100 + uploadChunkTick c8state.tTicks 100 }) :=
  upload_advance_step_properties.2.1 c8state
    { slotIdx := 1, pboIdx := 1, rowsUploaded := 100 } rfl (by decide)
